import Mathlib

set_option maxRecDepth 10000

/-!
Verification development for the `life` reasoning engine: a concept graph
(`ConceptGraph`), a dual-process question-answering controller
(`MetacognitionSpace`), and an ideology perspective analyzer
(`IdeologyFramework`).  Every definition below is a shallow embedding of the
corresponding Python function; lists of pairs model insertion-ordered
dictionaries, `Rat` models the numeric weights, and `Except` models
exceptions.  Console reports become explicit result values (the `Bool` of
`connectConcepts`, the fixed message strings elsewhere).
-/

namespace Life

/-- Lookup in an insertion-ordered dictionary modelled as an association list
(first binding wins, as in a Python `dict` where keys are unique). -/
def dget {α : Type} (d : List (String × α)) (k : String) : Option α :=
  (d.find? (fun p => p.1 == k)).map (fun p => p.2)

/-- Python `dict` assignment `d[k] = v`: replaces the value in place when the
key is present (keeping its position), otherwise appends the new binding. -/
def dinsert {α : Type} (d : List (String × α)) (k : String) (v : α) : List (String × α) :=
  if d.any (fun p => p.1 == k) then
    d.map (fun p => if p.1 == k then (k, v) else p)
  else
    d ++ [(k, v)]

/-- Python `dict.update`: fold `dinsert` over the new bindings. -/
def dupdate {α : Type} (d upd : List (String × α)) : List (String × α) :=
  upd.foldl (fun acc p => dinsert acc p.1 p.2) d

/-- Lowercase a string character by character (Python `str.lower` on the
ASCII identifiers used by the engine). -/
def lowerStr (s : String) : String :=
  String.mk (s.data.map Char.toLower)

/-- Decides whether `needle` occurs at the start of `hay`. -/
def isLeadOf : List Char → List Char → Bool
  | [], _ => true
  | _ :: _, [] => false
  | c :: cs, d :: ds => c == d && isLeadOf cs ds

/-- Decides whether `needle` occurs somewhere inside `hay` (Python
`needle in hay` on strings). -/
def containsSub (hay needle : List Char) : Bool :=
  match hay with
  | [] => needle.isEmpty
  | _ :: t => isLeadOf needle hay || containsSub t needle

/-- Python substring test `sub in s`. -/
def containsSubstr (s sub : String) : Bool :=
  containsSub s.data sub.data

/-! ## Concept graph (`life/concept_graph.py`)

A `networkx.DiGraph` is modelled by its insertion-ordered node list (name
with attribute dictionary) and edge list (source, target, relationship
label).  `add_node` on an existing node updates its attribute dictionary;
`add_edge` on an existing ordered pair updates the relationship label. -/

/-- An attribute value stored on a concept node: the engine stores strings
(type, definition, learned_at) and numeric extras such as importance. -/
inductive AttrVal : Type
  | str (s : String)
  | num (q : Rat)
deriving DecidableEq

/-- Attribute dictionary of a node. -/
abbrev Attrs := List (String × AttrVal)

/-- The concept graph: nodes with attribute dictionaries and directed
labelled edges, both in insertion order. -/
structure ConceptGraph where
  nodes : List (String × Attrs)
  edges : List (String × String × String)
deriving DecidableEq

/-- `ConceptGraph.__init__`: the empty graph. -/
def emptyGraph : ConceptGraph := ⟨[], []⟩

/-- Python `name in self.graph`. -/
def hasNode (g : ConceptGraph) (name : String) : Bool :=
  g.nodes.any (fun p => p.1 == name)

/-- The keyword-argument dictionary passed to `add_node` by `add_concept`:
`type`, `definition`, `learned_at` followed by the extra attributes. -/
def mkNodeAttrs (concept_type definition learned_at : String) (attributes : Attrs) : Attrs :=
  dupdate [("type", .str concept_type), ("definition", .str definition),
           ("learned_at", .str learned_at)] attributes

/-- `ConceptGraph.add_concept`: `nx.DiGraph.add_node` appends a fresh node,
or updates (merges into) the attribute dictionary of an existing node.
`datetime.now()` is passed in explicitly as `learned_at`. -/
def addConcept (g : ConceptGraph) (name concept_type definition learned_at : String)
    (attributes : Attrs) : ConceptGraph :=
  let newAttrs := mkNodeAttrs concept_type definition learned_at attributes
  if g.nodes.any (fun p => p.1 == name) then
    { g with nodes := g.nodes.map (fun p => if p.1 == name then (p.1, dupdate p.2 newAttrs) else p) }
  else
    { g with nodes := g.nodes ++ [(name, newAttrs)] }

/-- The test `add_edge`/`relOf` use to locate the edge from `a` to `b`. -/
def edgeKey (a b : String) : String × String × String → Bool :=
  fun e => e.1 == a && e.2.1 == b

/-- `ConceptGraph.connect_concepts`: when either endpoint is unknown the
graph is returned unchanged and the `Bool` is `false` (the printed warning);
otherwise `add_edge` inserts the edge or overwrites the label of the
existing edge, and the `Bool` is `true` (the printed confirmation). -/
def connectConcepts (g : ConceptGraph) (from_concept to_concept relationship : String) :
    ConceptGraph × Bool :=
  if !hasNode g from_concept || !hasNode g to_concept then
    (g, false)
  else if g.edges.any (edgeKey from_concept to_concept) then
    let replaced := g.edges.map (fun e =>
      if edgeKey from_concept to_concept e then (from_concept, to_concept, relationship) else e)
    ({ g with edges := replaced }, true)
  else
    ({ g with edges := g.edges ++ [(from_concept, to_concept, relationship)] }, true)

/-- `ConceptGraph.get_concept`: the node's attribute dictionary, or `none`. -/
def getConcept (g : ConceptGraph) (name : String) : Option Attrs :=
  (g.nodes.find? (fun p => p.1 == name)).map (fun p => p.2)

/-- Successors of a node in edge-insertion order (`graph.successors`). -/
def succs (g : ConceptGraph) (n : String) : List String :=
  g.edges.filterMap (fun e => if e.1 == n then some e.2.1 else none)

/-- Predecessors of a node in edge-insertion order (`graph.predecessors`). -/
def preds (g : ConceptGraph) (n : String) : List String :=
  g.edges.filterMap (fun e => if e.2.1 == n then some e.1 else none)

/-- The `relationship` label of the edge from `u` to `v`
(`self.graph[u][v]['relationship']`); `""` when the edge is absent, which
never happens on the paths the engine queries. -/
def relOf (g : ConceptGraph) (u v : String) : String :=
  ((g.edges.find? (edgeKey u v)).map (fun e => e.2.2)).getD ""

/-- A run of `n` copies of one character (Python `c * n`). -/
def charLine (c : Char) (n : Nat) : String :=
  String.mk (List.replicate n c)

/-- Python truthiness of an optional attribute value
(`attrs.get('definition')`). -/
def truthy : Option AttrVal → Bool
  | none => false
  | some (.str s) => !(s == "")
  | some (.num q) => !(q == 0)

/-- String content of an attribute value. -/
def strOf : AttrVal → String
  | .str s => s
  | .num q => toString q

/-- `ConceptGraph.explain_concept`: the unknown-concept message, or the
composed explanation (header, definition when truthy, outgoing then
incoming relationship lines). -/
def explainConcept (g : ConceptGraph) (concept : String) : String :=
  if !hasNode g concept then
    "I haven\x27t learned about \x27" ++ concept ++ "\x27 yet. Can you teach me?"
  else
    let attrs := (getConcept g concept).getD []
    let outgoing := (succs g concept).map (fun t => (t, relOf g concept t))
    let incoming := (preds g concept).map (fun s => (s, relOf g s concept))
    "\n" ++ charLine '=' 50 ++ "\n" ++ "📖 " ++ concept ++ "\n" ++ charLine '=' 50 ++ "\n\n"
    ++ (if truthy (dget attrs "definition") then
          "Definition: " ++ strOf ((dget attrs "definition").getD (.str "")) ++ "\n\n"
        else "")
    ++ (if outgoing.isEmpty then "" else
          "This concept:\n"
          ++ String.join (outgoing.map (fun p => "  • " ++ p.2 ++ " → " ++ p.1 ++ "\n"))
          ++ "\n")
    ++ (if incoming.isEmpty then "" else
          "Related from:\n"
          ++ String.join (incoming.map (fun p => "  • " ++ p.1 ++ " --[" ++ p.2 ++ "]→ this\n")))

/-- One expansion layer of the breadth-first search behind
`nx.shortest_path`: each frontier entry is a reversed path; its head is
expanded along unvisited successors. -/
def expandFrontier (g : ConceptGraph) (visited : List String) :
    List (List String) → List (List String)
  | [] => []
  | p :: ps =>
    (match p with
     | cur :: _ => ((succs g cur).filter (fun s => !(visited.contains s))).map (fun s => s :: p)
     | [] => [])
    ++ expandFrontier g visited ps

/-- Breadth-first search for `nx.shortest_path`: scan the frontier for a
path reaching the target (returning it in forward order), otherwise expand
one layer.  Fuel bounds the number of layers; `nodes.length + 1` layers
always suffice. -/
def bfsAux (g : ConceptGraph) (target : String) :
    Nat → List String → List (List String) → Option (List String)
  | 0, _, _ => none
  | fuel + 1, visited, frontier =>
    match frontier.find? (fun p => p.head? == some target) with
    | some p => some p.reverse
    | none =>
      let expanded := expandFrontier g visited frontier
      bfsAux g target fuel (visited ++ expanded.filterMap List.head?) expanded

/-- Outcome of `find_path`, mirroring its three return branches. -/
inductive PathResult : Type
  | path (steps : List (String × String × String))
  | noPath
  | notFound
deriving DecidableEq

/-- The consecutive steps of a node path, each with its relationship label
(the loop body of `find_path`). -/
def pathSteps (g : ConceptGraph) : List String → List (String × String × String)
  | u :: v :: rest => (u, relOf g u v, v) :: pathSteps g (v :: rest)
  | _ => []

/-- `ConceptGraph.find_path`: `nx.shortest_path` raising `NodeNotFound` when
either endpoint is absent, `NetworkXNoPath` when no directed path exists,
and otherwise one shortest directed path rendered as labelled steps. -/
def findPath (g : ConceptGraph) (from_concept to_concept : String) : PathResult :=
  if hasNode g from_concept && hasNode g to_concept then
    match bfsAux g to_concept (g.nodes.length + 1) [from_concept] [[from_concept]] with
    | some p => .path (pathSteps g p)
    | none => .noPath
  else
    .notFound

/-- One rendered line of a reasoning path. -/
def renderStep (s : String × String × String) : String :=
  "  " ++ s.1 ++ " --[" ++ s.2.1 ++ "]--> " ++ s.2.2 ++ "\n"

/-- The string `find_path` returns in each of its three branches. -/
def renderFindPath (g : ConceptGraph) (from_concept to_concept : String) : String :=
  match findPath g from_concept to_concept with
  | .path steps =>
    "\n🔗 Reasoning path from \x27" ++ from_concept ++ "\x27 to \x27" ++ to_concept ++ "\x27:\n"
    ++ String.join (steps.map renderStep)
  | .noPath =>
    "No connection found between \x27" ++ from_concept ++ "\x27 and \x27" ++ to_concept ++ "\x27"
  | .notFound =>
    "Concept not found: " ++ from_concept ++ ", " ++ to_concept

/-! ## Metacognition (`life/metacognition.py`) -/

/-- One entry of the thinking log. -/
structure ThinkingEntry where
  question : String
  timestamp : String
  mode : String
deriving DecidableEq

/-- The metacognition space: a knowledge graph reference, the confidence
threshold and the append-only thinking log. -/
structure MetacognitionSpace where
  kb : ConceptGraph
  confidence_threshold : Rat
  thinking_log : List ThinkingEntry
deriving DecidableEq

/-- `MetacognitionSpace.__init__` with the default threshold `0.7`. -/
def MetacognitionSpace.init (kb : ConceptGraph) : MetacognitionSpace :=
  ⟨kb, mkRat 7 10, []⟩

/-- The stop-word set of `_extract_keywords`. -/
def stopWords : List String :=
  ["what", "is", "are", "the", "a", "an", "how", "does",
   "do", "can", "could", "would", "should", "about", "to"]

/-- Python `str.split()`: split on whitespace runs, dropping empty pieces.
The accumulator holds the current word reversed. -/
def splitWords : List Char → List Char → List String
  | [], acc => if acc.isEmpty then [] else [String.mk acc.reverse]
  | c :: cs, acc =>
    if c.isWhitespace then
      (if acc.isEmpty then splitWords cs [] else String.mk acc.reverse :: splitWords cs [])
    else
      splitWords cs (c :: acc)

/-- `MetacognitionSpace._extract_keywords`: lowercase, strip `?` and `,`,
split on whitespace, drop stop words and tokens of length at most 2. -/
def extractKeywords (question : String) : List String :=
  let cleaned := (question.data.map Char.toLower).filter (fun c => !(c == '?') && !(c == ','))
  (splitWords cleaned []).filter (fun w => !(stopWords.contains w) && decide (w.length > 2))

/-- The relevant-concept scan shared by `_fast_thinking`, `_slow_thinking`
and `analyze_confidence`: every node whose lowercased name contains some
extracted keyword, in node-insertion order. -/
def relevantConcepts (kb : ConceptGraph) (question : String) : List String :=
  let words := extractKeywords question
  kb.nodes.filterMap (fun p =>
    if words.any (fun w => containsSubstr (lowerStr p.1) w) then some p.1 else none)

/-- `MetacognitionSpace._fast_thinking`: answer and confidence by the number
of relevant concepts (0, 1, or several capped at the first three). -/
def fastThinking (m : MetacognitionSpace) (question : String) : String × Rat :=
  let relevant := relevantConcepts m.kb question
  match relevant with
  | [] => ("I don\x27t know yet.", 0)
  | [c] => (explainConcept m.kb c, mkRat 8 10)
  | _ => (String.intercalate "\n" ((relevant.take 3).map (explainConcept m.kb)), mkRat 5 10)

/-- `MetacognitionSpace._generate_learning_request`. -/
def generateLearningRequest (question : String) : String :=
  "I need more knowledge to answer: \x27" ++ question ++ "\x27\n\n"
  ++ "Can you teach me the relevant concepts? Use:\n"
  ++ "  kb.add_concept(name, type, definition)\n"
  ++ "  kb.connect_concepts(concept1, concept2, relationship)"

/-- The rendered paths collected by the pairwise loop of `_slow_thinking`:
for each later concept, the rendered `find_path` output kept when it does
not contain `"No connection"`. -/
def pairPathTexts (g : ConceptGraph) : List String → List String
  | [] => []
  | c :: rest =>
    ((rest.map (fun o => renderFindPath g c o)).filter
      (fun s => !(containsSubstr s "No connection")))
    ++ pairPathTexts g rest

/-- `MetacognitionSpace._slow_thinking`: appends the log entry first
(timestamp passed explicitly), then either returns the learning request
(empty relevant set) or the synthesized deep analysis. -/
def slowThinking (m : MetacognitionSpace) (question ts : String) : String × MetacognitionSpace :=
  let m' := { m with thinking_log := m.thinking_log ++ [⟨question, ts, "deep_thinking"⟩] }
  let relevant := relevantConcepts m.kb question
  if relevant.isEmpty then
    (generateLearningRequest question, m')
  else
    let chain := relevant.map (explainConcept m.kb) ++ pairPathTexts m.kb relevant
    ("\n🧠 Deep Analysis:\n" ++ String.intercalate "\n" chain, m')

/-- `MetacognitionSpace.process_question`: the fast answer when its
confidence strictly exceeds the threshold, otherwise the slow path. -/
def processQuestion (m : MetacognitionSpace) (question ts : String) : String × MetacognitionSpace :=
  let fast := fastThinking m question
  if m.confidence_threshold < fast.2 then (fast.1, m)
  else slowThinking m question ts

/-! ## Ideology framework (`life/ideology.py`) -/

/-- One taught ideology: weighted values, principles, description and
examples (the dictionary stored by `teach_ideology`). -/
structure Ideology where
  values : List (String × Rat)
  principles : List String
  description : String
  examples : List String
deriving DecidableEq

/-- The ideology store. -/
structure IdeologyFramework where
  ideologies : List (String × Ideology)
deriving DecidableEq

/-- `IdeologyFramework.__init__`: the empty store. -/
def emptyFramework : IdeologyFramework := ⟨[]⟩

/-- `IdeologyFramework.teach_ideology`: validates every weight lies in
`[0, 1]`; on violation raises `ValueError` (modelled as `.error`) storing
nothing; on success stores the ideology under its name (replacing any prior
entry). -/
def teachIdeology (f : IdeologyFramework) (name : String) (core_values : List (String × Rat))
    (principles : List String) (description : String) (examples : List String) :
    Except String IdeologyFramework :=
  if core_values.all (fun p => decide (0 ≤ p.2) && decide (p.2 ≤ 1)) then
    .ok { ideologies := dinsert f.ideologies name ⟨core_values, principles, description, examples⟩ }
  else
    .error "Core values must be between 0 and 1"

/-- `IdeologyFramework.list_ideologies`. -/
def listIdeologies (f : IdeologyFramework) : List String :=
  f.ideologies.map (fun p => p.1)

/-- The government/regulation keyword set of `_generate_recommendation`. -/
def govWords : List String := ["government", "regulation", "law", "mandate"]

/-- The economy/market keyword set of `_generate_recommendation`. -/
def econWords : List String := ["economy", "market", "business", "wealth"]

/-- `values.get(key, 0)`. -/
def vget (values : List (String × Rat)) (k : String) : Rat :=
  (dget values k).getD 0

/-- Python `max(values.items(), key=lambda x: x[1])`: the first entry of
maximal weight, or `none` on the empty list (where `max` raises). -/
def maxByWeight : List (String × Rat) → Option (String × Rat)
  | [] => none
  | x :: xs => some (xs.foldl (fun best p => if best.2 < p.2 then p else best) x)

/-- `IdeologyFramework._generate_recommendation`: the first-match-wins rule
cascade; the default branch takes the maximum of the values and raises
`ValueError` (modelled as `.error`) when the mapping is empty. -/
def generateRecommendation (situation : String) (values : List (String × Rat))
    (principles : List String) : Except String String :=
  let sl := lowerStr situation
  let govHit := govWords.any (fun w => containsSubstr sl w)
  let econHit := econWords.any (fun w => containsSubstr sl w)
  if govHit && (decide (mkRat 7 10 < vget values "limited_government")
                || decide (mkRat 8 10 < vget values "freedom")) then
    .ok "  → Oppose government intervention. Preserve individual freedom and voluntary action."
  else if govHit && (decide (mkRat 7 10 < vget values "collective_welfare")
                     || decide (mkRat 8 10 < vget values "equality")) then
    .ok "  → Support if it promotes collective welfare and reduces inequality."
  else if econHit && decide (mkRat 7 10 < vget values "free_markets") then
    .ok "  → Let markets operate freely. Minimize restrictions on economic activity."
  else if econHit && decide (mkRat 8 10 < vget values "equality") then
    .ok "  → Ensure economic decisions promote equitable distribution."
  else
    match maxByWeight values with
    | some top => .ok ("  → Prioritize " ++ top.1 ++ " in decision-making process.")
    | none => .error "max() arg is an empty sequence"

/-- The per-value synonym table of `_assess_value_impact`. -/
def valueKeywords : List (String × List String) :=
  [("freedom", ["liberty", "choice", "autonomy"]),
   ("equality", ["equal", "fair", "equitable"]),
   ("security", ["safe", "protect", "stability"]),
   ("property", ["ownership", "private", "assets"]),
   ("collective", ["common", "shared", "together"])]

/-- `IdeologyFramework._assess_value_impact`: the three-tier impact label. -/
def assessValueImpact (situation value : String) : String :=
  let sl := lowerStr situation
  let vl := lowerStr value
  if containsSubstr sl vl then "Directly affected ⚠️"
  else if ((dget valueKeywords vl).getD []).any (fun kw => containsSubstr sl kw) then
    "Indirectly impacted ⚡"
  else "Minimal impact ○"

/-- The bar of `'█' * int(importance * 10)` for a nonnegative weight
(`int` truncates, which is the floor here). -/
def barOf (importance : Rat) : String :=
  charLine '█' ((importance.num * 10 / (importance.den : Int)).toNat)

/-- Two-decimal rendering of a nonnegative weight (`f"{importance:.2f}"`),
rounding half up; the source rounds half to even, and the two agree on
every weight appearing in this development. -/
def fmt2 (q : Rat) : String :=
  let c : Nat := (q.num.toNat * 100 + q.den / 2) / q.den
  Nat.repr (c / 100) ++ "." ++ (if c % 100 < 10 then "0" else "") ++ Nat.repr (c % 100)

/-- Python `f"{value:<20}"`: left-justify to width 20. -/
def ljust (s : String) (w : Nat) : String :=
  s ++ charLine ' ' (w - s.length)

/-- The ranked core-value lines of `analyze_from_perspective`. -/
def valueLines (sorted : List (String × Rat)) : String :=
  String.join (sorted.map (fun p =>
    "  • " ++ ljust p.1 20 ++ " " ++ barOf p.2 ++ " " ++ fmt2 p.2 ++ "\n"))

/-- The value-impact lines of `analyze_from_perspective`. -/
def impactLines (situation : String) (sorted : List (String × Rat)) : String :=
  String.join (sorted.map (fun p =>
    "  • " ++ p.1 ++ ": " ++ assessValueImpact situation p.1 ++ "\n"))

/-- The numbered principle lines of `analyze_from_perspective`. -/
def principleLines (principles : List String) : String :=
  String.join (principles.enum.map (fun p => "  " ++ Nat.repr (p.1 + 1) ++ ". " ++ p.2 ++ "\n"))

/-- Everything `analyze_from_perspective` composes before the
recommendation: header, optional overview, values ranked descending by
weight with a stable sort, situation, impact assessment, principles. -/
def analysisBody (situation ideology_name : String) (ideology : Ideology) : String :=
  let sorted := ideology.values.insertionSort (fun x y => y.2 ≤ x.2)
  "\n" ++ charLine '=' 60 ++ "\n" ++ "🎭 " ++ ideology_name ++ " Perspective\n"
  ++ charLine '=' 60 ++ "\n\n"
  ++ (if ideology.description == "" then "" else "Overview: " ++ ideology.description ++ "\n\n")
  ++ "Core Values (by priority):\n" ++ valueLines sorted
  ++ "\n📋 Situation: " ++ situation ++ "\n\n"
  ++ "Value Impact Assessment:\n" ++ impactLines situation sorted
  ++ "\nRelevant Principles:\n" ++ principleLines ideology.principles

/-- `IdeologyFramework.analyze_from_perspective`: the unknown-ideology
message, or the composed analysis ending with the recommendation; a
`ValueError` escaping `_generate_recommendation` propagates. -/
def analyzeFromPerspective (f : IdeologyFramework) (situation ideology_name : String) :
    Except String String :=
  match dget f.ideologies ideology_name with
  | none => .ok ("I haven\x27t learned about " ++ ideology_name ++ " yet.")
  | some ideology =>
    match generateRecommendation situation ideology.values ideology.principles with
    | .error e => .error e
    | .ok recommendation =>
      .ok (analysisBody situation ideology_name ideology
           ++ "\n💡 Recommendation:\n" ++ recommendation ++ "\n")

/-- The synthesis text of `_synthesize_perspectives` for `nv` distinct
values and `nf` valid frameworks. -/
def synthesisBody (nv nf : Nat) : String :=
  "Different perspectives reveal:\n"
  ++ "  • " ++ Nat.repr nv ++ " distinct values at play\n"
  ++ "  • " ++ Nat.repr nf ++ " competing frameworks\n"
  ++ "  • Decision requires balancing trade-offs\n\n"
  ++ "Consider: What values matter most in this specific context?"

/-- `IdeologyFramework._synthesize_perspectives`: counts the valid
ideologies and the distinct value names across them (`set` modelled by
`dedup`). -/
def synthesizePerspectives (f : IdeologyFramework) (situation : String)
    (ideologies : List String) : String :=
  let valid := ideologies.filter (fun i => (dget f.ideologies i).isSome)
  if valid.isEmpty then "No valid ideologies to synthesize."
  else
    let allValues :=
      (valid.foldl (fun acc i =>
        acc ++ (((dget f.ideologies i).map Ideology.values).getD []).map (fun p => p.1)) []).dedup
    synthesisBody allValues.length valid.length

/-- The header `compare_perspectives` starts from. -/
def comparisonHeader (situation : String) : String :=
  "\n" ++ charLine '=' 60 ++ "\n" ++ "🔄 Multi-Perspective Analysis\n" ++ charLine '=' 60 ++ "\n"
  ++ "\n📋 Situation: " ++ situation ++ "\n\n"

/-- The separator appended after each included analysis. -/
def comparisonSep : String :=
  "\n" ++ charLine '-' 60 ++ "\n"

/-- The loop of `compare_perspectives`: names present in the store
contribute their analysis followed by the separator, unregistered names are
skipped; an escaping `ValueError` propagates. -/
def compareFold (f : IdeologyFramework) (situation : String) :
    List String → String → Except String String
  | [], acc => .ok acc
  | name :: rest, acc =>
    if (dget f.ideologies name).isSome then
      match analyzeFromPerspective f situation name with
      | .error e => .error e
      | .ok a => compareFold f situation rest (acc ++ a ++ comparisonSep)
    else
      compareFold f situation rest acc

/-- `IdeologyFramework.compare_perspectives`: the concatenated analyses of
the registered names followed by the synthesis. -/
def comparePerspectives (f : IdeologyFramework) (situation : String) (names : List String) :
    Except String String :=
  match compareFold f situation names (comparisonHeader situation) with
  | .error e => .error e
  | .ok body => .ok (body ++ "\n🎯 Synthesis:\n" ++ synthesizePerspectives f situation names)

/-! ## Helper lemmas -/

/-- In a list containing a match of `p`, replacing every match by `c`
(with `p c` true) makes `c` the first match. -/
theorem find_replace_first {α : Type} (p : α → Bool) (c : α) (hc : p c = true)
    (l : List α) (h : l.any p = true) :
    (l.map (fun e => if p e then c else e)).find? p = some c := by
  induction l with
  | nil => simp at h
  | cons x xs ih =>
    simp only [List.map_cons]
    by_cases hx : p x = true
    · rw [if_pos hx, List.find?_cons_of_pos _ hc]
    · have hx' : p x = false := Bool.eq_false_iff.mpr hx
      rw [if_neg hx, List.find?_cons_of_neg _ hx]
      apply ih
      simpa [List.any_cons, hx'] using h

/-- Dictionary assignment followed by lookup of the same key. -/
theorem dget_dinsert {α : Type} (d : List (String × α)) (k : String) (v : α) :
    dget (dinsert d k v) k = some v := by
  unfold dget dinsert
  by_cases h : d.any (fun p => p.1 == k) = true
  · rw [if_pos h, find_replace_first (fun p => p.1 == k) (k, v) (by simp) d h]
    rfl
  · have h' : d.any (fun p => p.1 == k) = false := Bool.eq_false_iff.mpr h
    rw [if_neg h, List.find?_append]
    have hnone : d.find? (fun p => p.1 == k) = none := by
      refine List.find?_eq_none.mpr ?_
      intro x hx
      have := List.any_eq_false.mp h' x hx
      simpa using this
    rw [hnone]
    simp

/-- The first element of a mapped frontier layer whose head is `B` is
`B :: rest`, provided `B` occurs in the layer's sources. -/
theorem find_head_cons (B : String) (rest : List String) (l : List String) (hB : B ∈ l) :
    (l.map (fun s => s :: rest)).find? (fun p => p.head? == some B) = some (B :: rest) := by
  induction l with
  | nil => cases hB
  | cons x xs ih =>
    simp only [List.map_cons]
    by_cases hx : x = B
    · subst hx
      rw [List.find?_cons_of_pos]
      simp
    · rw [List.find?_cons_of_neg]
      · refine ih ?_
        rcases List.mem_cons.mp hB with h1 | h2
        · exact absurd h1.symm hx
        · exact h2
      · simp [hx]

/-! ## Claim C1 -/

/-- C1 counterexample: on a fresh graph with no concepts, `process_question`
does not return the fixed "I don't know yet" message (the fast confidence
0.0 is not above the threshold, so the slow path answers with the learning
request instead). -/
theorem c1_process_question_counterexample :
    (processQuestion (MetacognitionSpace.init emptyGraph) "What is democracy?" "2024-01-01").1
      ≠ "I don\x27t know yet." := by decide

/-- C1 (amended): for every question whose extracted keywords match no
concept, the fast path yields the fixed "I don't know yet" message at
confidence 0.0, and `process_question` (with any nonnegative threshold,
in particular the default 0.7) falls through to the slow path and returns
the learning-request ("teach me") message. -/
theorem c1_process_question_no_match (m : MetacognitionSpace) (question ts : String)
    (hrel : relevantConcepts m.kb question = []) (hth : 0 ≤ m.confidence_threshold) :
    fastThinking m question = ("I don\x27t know yet.", 0)
    ∧ processQuestion m question ts
      = (generateLearningRequest question,
         { m with thinking_log := m.thinking_log ++ [⟨question, ts, "deep_thinking"⟩] }) := by
  have hfast : fastThinking m question = ("I don\x27t know yet.", 0) := by
    unfold fastThinking
    rw [hrel]
  refine ⟨hfast, ?_⟩
  unfold processQuestion
  rw [hfast, if_neg (not_lt.mpr hth)]
  unfold slowThinking
  rw [hrel]
  simp

/-- C1 witness: the amended statement at the empty graph and the question
"What is democracy?". -/
theorem c1_process_question_no_match_witness :
    relevantConcepts (MetacognitionSpace.init emptyGraph).kb "What is democracy?" = []
    ∧ fastThinking (MetacognitionSpace.init emptyGraph) "What is democracy?"
        = ("I don\x27t know yet.", 0)
    ∧ (processQuestion (MetacognitionSpace.init emptyGraph) "What is democracy?" "2024-01-01").1
        = generateLearningRequest "What is democracy?" :=
  ⟨by decide,
   (c1_process_question_no_match (MetacognitionSpace.init emptyGraph) "What is democracy?"
     "2024-01-01" (by decide) (by decide)).1,
   by
     rw [(c1_process_question_no_match (MetacognitionSpace.init emptyGraph) "What is democracy?"
       "2024-01-01" (by decide) (by decide)).2]⟩

/-! ## Claim C3 -/

/-- C3 counterexample: the slow path entered with an empty relevant set
returns the "teach me" message, yet a `deep_thinking` log entry has been
appended: the append happens before the emptiness check. -/
theorem c3_slow_thinking_counterexample :
    (slowThinking (MetacognitionSpace.init emptyGraph) "What is democracy?" "2024-01-01").1
      = generateLearningRequest "What is democracy?"
    ∧ (slowThinking (MetacognitionSpace.init emptyGraph) "What is democracy?"
        "2024-01-01").2.thinking_log
      = [⟨"What is democracy?", "2024-01-01", "deep_thinking"⟩] := by
  constructor <;> decide

/-- C3 (amended): when the slow path finds an empty relevant-concept set it
returns the "teach me" message, and it still appends exactly one log entry
(question, timestamp, "deep_thinking" mode): the append is unconditional on
entering the slow path, not restricted to the non-empty case. -/
theorem c3_slow_thinking_empty_logs (m : MetacognitionSpace) (question ts : String)
    (hrel : relevantConcepts m.kb question = []) :
    slowThinking m question ts
      = (generateLearningRequest question,
         { m with thinking_log := m.thinking_log ++ [⟨question, ts, "deep_thinking"⟩] }) := by
  unfold slowThinking
  rw [hrel]
  simp

/-- C3 witness: the amended statement at the empty graph. -/
theorem c3_slow_thinking_empty_logs_witness :
    relevantConcepts (MetacognitionSpace.init emptyGraph).kb "What is democracy?" = []
    ∧ slowThinking (MetacognitionSpace.init emptyGraph) "What is democracy?" "2024-01-01"
      = (generateLearningRequest "What is democracy?",
         { MetacognitionSpace.init emptyGraph with
             thinking_log := (MetacognitionSpace.init emptyGraph).thinking_log
               ++ [⟨"What is democracy?", "2024-01-01", "deep_thinking"⟩] }) :=
  ⟨by decide,
   c3_slow_thinking_empty_logs (MetacognitionSpace.init emptyGraph) "What is democracy?"
     "2024-01-01" (by decide)⟩

/-! ## Claim C4 -/

/-- C4: when the extracted keywords match exactly one concept, the fast
path yields that concept's explanation at confidence 0.8; with the default
threshold 0.7 `process_question` returns it immediately and the state (in
particular the thinking log) is unchanged. -/
theorem c4_process_question_single_concept (m : MetacognitionSpace) (question ts c : String)
    (hrel : relevantConcepts m.kb question = [c])
    (hth : m.confidence_threshold = mkRat 7 10) :
    fastThinking m question = (explainConcept m.kb c, mkRat 8 10)
    ∧ processQuestion m question ts = (explainConcept m.kb c, m) := by
  have hfast : fastThinking m question = (explainConcept m.kb c, mkRat 8 10) := by
    unfold fastThinking
    rw [hrel]
  refine ⟨hfast, ?_⟩
  unfold processQuestion
  rw [hfast, hth, if_pos (by decide : mkRat 7 10 < mkRat 8 10)]

/-- C4 witness: a graph holding the single concept "Democracy" and the
question "What is democracy?". -/
theorem c4_process_question_single_concept_witness :
    relevantConcepts
        (addConcept emptyGraph "Democracy" "political_system" "Government by the people" "ts0" [])
        "What is democracy?" = ["Democracy"]
    ∧ processQuestion
        (MetacognitionSpace.init
          (addConcept emptyGraph "Democracy" "political_system" "Government by the people" "ts0" []))
        "What is democracy?" "2024-01-01"
      = (explainConcept
          (addConcept emptyGraph "Democracy" "political_system" "Government by the people" "ts0" [])
          "Democracy",
         MetacognitionSpace.init
          (addConcept emptyGraph "Democracy" "political_system" "Government by the people" "ts0" [])) :=
  ⟨by decide,
   (c4_process_question_single_concept
     (MetacognitionSpace.init
       (addConcept emptyGraph "Democracy" "political_system" "Government by the people" "ts0" []))
     "What is democracy?" "2024-01-01" "Democracy" (by decide) (by decide)).2⟩

/-! ## Claim C5 -/

/-- C5: `connect_concepts` with at least one unknown endpoint creates no
edge, raises nothing, leaves the whole graph unchanged, and reports the
not-connected condition (the `false` component standing for the printed
warning). -/
theorem c5_connect_unknown_noop (g : ConceptGraph) (s t r : String)
    (h : hasNode g s = false ∨ hasNode g t = false) :
    connectConcepts g s t r = (g, false) := by
  unfold connectConcepts
  have hc : (!hasNode g s || !hasNode g t) = true := by
    rcases h with h | h <;> simp [h]
  rw [if_pos hc]

/-- C5 witness: connecting two names on the empty graph. -/
theorem c5_connect_unknown_noop_witness :
    hasNode emptyGraph "Democracy" = false
    ∧ connectConcepts emptyGraph "Democracy" "Freedom" "requires" = (emptyGraph, false) :=
  ⟨by decide,
   c5_connect_unknown_noop emptyGraph "Democracy" "Freedom" "requires" (Or.inl (by decide))⟩

/-! ## Claim C6 -/

/-- C6: teaching an ideology with any value weight outside `[0, 1]` fails
with the validation error and stores nothing: no `.ok` state is produced,
so the caller's store (and in particular the absence of the ideology) is
untouched. -/
theorem c6_teach_invalid_weight (f : IdeologyFramework) (name : String)
    (core_values : List (String × Rat)) (principles : List String) (description : String)
    (examples : List String) (w : Rat) (hw : w ∈ core_values.map Prod.snd)
    (hout : ¬(0 ≤ w ∧ w ≤ 1)) :
    teachIdeology f name core_values principles description examples
      = .error "Core values must be between 0 and 1" := by
  have hall : core_values.all (fun p => decide (0 ≤ p.2) && decide (p.2 ≤ 1)) = false := by
    rcases List.mem_map.mp hw with ⟨p, hp, rfl⟩
    refine Bool.eq_false_iff.mpr ?_
    intro hcontra
    exact hout (by simpa using List.all_eq_true.mp hcontra p hp)
  unfold teachIdeology
  rw [hall]
  simp

/-- C6 witness: weight 1.5 on "freedom" is rejected by the empty store. -/
theorem c6_teach_invalid_weight_witness :
    mkRat 3 2 ∈ ([("freedom", mkRat 3 2)].map Prod.snd)
    ∧ ¬(0 ≤ mkRat 3 2 ∧ mkRat 3 2 ≤ 1)
    ∧ teachIdeology emptyFramework "Objectivism" [("freedom", mkRat 3 2)] [] "" []
      = .error "Core values must be between 0 and 1" :=
  ⟨by decide, by decide,
   c6_teach_invalid_weight emptyFramework "Objectivism" [("freedom", mkRat 3 2)] [] "" []
     (mkRat 3 2) (by decide) (by decide)⟩

/-! ## Claim C2 -/

/-- The graph after teaching "X" twice with different extra attributes:
first with `importance`, then with `color`. -/
def mergeDemo : ConceptGraph :=
  addConcept (addConcept emptyGraph "X" "t1" "d1" "ts1" [("importance", AttrVal.str "0.9")])
    "X" "t2" "d2" "ts2" [("color", AttrVal.str "blue")]

/-- C2 counterexample: after re-adding "X" with an attribute set not
containing `importance`, the attribute `importance` from the first call is
still visible (and the second call's attributes are present as well):
`nx.DiGraph.add_node` merges attribute dictionaries, it does not replace
them. -/
theorem c2_add_concept_counterexample :
    dget ((getConcept mergeDemo "X").getD []) "importance" = some (.str "0.9")
    ∧ dget ((getConcept mergeDemo "X").getD []) "color" = some (.str "blue")
    ∧ dget ((getConcept mergeDemo "X").getD []) "type" = some (.str "t2") := by
  refine ⟨?_, ?_, ?_⟩ <;> decide

/-- C2 (amended): calling `add_concept(X, ...)` a second time with a
different attribute set updates the stored dictionary with the second
call's entries (so `type`, `definition`, `learned_at` and every re-supplied
key are overwritten), while attributes supplied only in the first call
remain visible: a dictionary merge, not an overwrite. -/
theorem c2_add_concept_merges (g : ConceptGraph) (name t1 d1 ts1 t2 d2 ts2 : String)
    (a1 a2 : Attrs) (hfresh : getConcept g name = none) :
    getConcept (addConcept (addConcept g name t1 d1 ts1 a1) name t2 d2 ts2 a2) name
      = some (dupdate (mkNodeAttrs t1 d1 ts1 a1) (mkNodeAttrs t2 d2 ts2 a2)) := by
  have hnone : g.nodes.find? (fun p => p.1 == name) = none := by
    unfold getConcept at hfresh
    exact Option.map_eq_none'.mp hfresh
  have hpred : ∀ p ∈ g.nodes, ((p.1 == name) : Bool) = false := by
    intro p hp
    have := List.find?_eq_none.mp hnone p hp
    simpa using this
  have hany : g.nodes.any (fun p => p.1 == name) = false := by
    rw [List.any_eq_false]
    intro p hp
    simp [hpred p hp]
  have step1 : addConcept g name t1 d1 ts1 a1
      = { g with nodes := g.nodes ++ [(name, mkNodeAttrs t1 d1 ts1 a1)] } := by
    unfold addConcept
    rw [hany]
    simp
  rw [step1]
  have hany2 : ((g.nodes ++ [(name, mkNodeAttrs t1 d1 ts1 a1)]).any
      (fun p => p.1 == name)) = true := by
    simp [List.any_append, hany]
  unfold addConcept
  rw [hany2]
  simp only [if_true]
  unfold getConcept
  simp only [List.map_append, List.map_cons, List.map_nil, List.find?_append]
  have hleft : ((g.nodes.map (fun p =>
      if p.1 == name then (p.1, dupdate p.2 (mkNodeAttrs t2 d2 ts2 a2)) else p)).find?
      (fun p => p.1 == name)) = none := by
    refine List.find?_eq_none.mpr ?_
    intro x hx
    rcases List.mem_map.mp hx with ⟨p, hp, rfl⟩
    rw [if_neg (by simp [hpred p hp])]
    simp [hpred p hp]
  rw [hleft]
  simp

/-- C2 witness: the amended statement at the `mergeDemo` inputs. -/
theorem c2_add_concept_merges_witness :
    getConcept emptyGraph "X" = none
    ∧ getConcept mergeDemo "X"
      = some (dupdate (mkNodeAttrs "t1" "d1" "ts1" [("importance", AttrVal.str "0.9")])
              (mkNodeAttrs "t2" "d2" "ts2" [("color", AttrVal.str "blue")])) :=
  ⟨by decide,
   c2_add_concept_merges emptyGraph "X" "t1" "d1" "ts1" "t2" "d2" "ts2"
     [("importance", AttrVal.str "0.9")] [("color", AttrVal.str "blue")] (by decide)⟩

/-! ## Claim C8 -/

/-- C8: for every stored ideology, whenever the situation contains a
government/regulation keyword and the `limited_government` weight exceeds
0.7 or the `freedom` weight exceeds 0.8, the first branch of the cascade
fires: `_generate_recommendation` returns the oppose-intervention text and
`analyze_from_perspective` embeds exactly that recommendation in its
report. -/
theorem c8_analyze_oppose_intervention (f : IdeologyFramework) (situation name : String)
    (ideo : Ideology) (hi : dget f.ideologies name = some ideo)
    (hgov : govWords.any (fun w => containsSubstr (lowerStr situation) w) = true)
    (hval : mkRat 7 10 < vget ideo.values "limited_government"
            ∨ mkRat 8 10 < vget ideo.values "freedom") :
    generateRecommendation situation ideo.values ideo.principles
      = .ok "  → Oppose government intervention. Preserve individual freedom and voluntary action."
    ∧ analyzeFromPerspective f situation name
      = .ok (analysisBody situation name ideo
             ++ "\n💡 Recommendation:\n"
             ++ "  → Oppose government intervention. Preserve individual freedom and voluntary action."
             ++ "\n") := by
  have hcondition : (govWords.any (fun w => containsSubstr (lowerStr situation) w)
      && (decide (mkRat 7 10 < vget ideo.values "limited_government")
          || decide (mkRat 8 10 < vget ideo.values "freedom"))) = true := by
    rw [hgov]
    rcases hval with h | h <;> simp [h]
  have hrec : generateRecommendation situation ideo.values ideo.principles
      = .ok "  → Oppose government intervention. Preserve individual freedom and voluntary action." := by
    unfold generateRecommendation
    rw [if_pos hcondition]
  refine ⟨hrec, ?_⟩
  unfold analyzeFromPerspective
  rw [hi]
  simp only [hrec]

/-- The libertarian ideology of the C8 witness. -/
def libIdeo : Ideology :=
  ⟨[("freedom", mkRat 19 20), ("limited_government", mkRat 17 20)],
   ["Minimize government intervention"], "", []⟩

/-- The store of the C8 witness. -/
def libFW : IdeologyFramework := ⟨[("Libertarianism", libIdeo)]⟩

/-- C8 witness: `values={"freedom":0.95,"limited_government":0.85}` with a
situation containing "regulation". -/
theorem c8_analyze_oppose_intervention_witness :
    dget libFW.ideologies "Libertarianism" = some libIdeo
    ∧ govWords.any (fun w => containsSubstr (lowerStr "New regulation proposed") w) = true
    ∧ generateRecommendation "New regulation proposed" libIdeo.values libIdeo.principles
      = .ok "  → Oppose government intervention. Preserve individual freedom and voluntary action." :=
  ⟨by decide, by decide,
   (c8_analyze_oppose_intervention libFW "New regulation proposed" "Libertarianism" libIdeo
     (by decide) (by decide) (Or.inr (by decide))).1⟩

/-! ## Claim C10 -/

/-- C10: `teach_ideology` accepts an empty values mapping (the range check
passes vacuously and the ideology is stored); analyzing any situation free
of the government/regulation and economy keywords against it reaches the
default branch, whose `max` over the empty mapping raises `ValueError`
instead of producing a report. -/
theorem c10_empty_values_error (f : IdeologyFramework) (name : String)
    (principles : List String) (description : String) (examples : List String)
    (situation : String)
    (hgov : govWords.any (fun w => containsSubstr (lowerStr situation) w) = false)
    (hecon : econWords.any (fun w => containsSubstr (lowerStr situation) w) = false) :
    teachIdeology f name [] principles description examples
      = .ok { ideologies := dinsert f.ideologies name ⟨[], principles, description, examples⟩ }
    ∧ analyzeFromPerspective
        { ideologies := dinsert f.ideologies name ⟨[], principles, description, examples⟩ }
        situation name
      = .error "max() arg is an empty sequence" := by
  constructor
  · unfold teachIdeology
    simp
  · have hget : dget (dinsert f.ideologies name ⟨[], principles, description, examples⟩) name
        = some ⟨[], principles, description, examples⟩ := dget_dinsert _ _ _
    have hrec : generateRecommendation situation
        (Ideology.mk [] principles description examples).values
        (Ideology.mk [] principles description examples).principles
        = .error "max() arg is an empty sequence" := by
      show generateRecommendation situation [] principles = .error "max() arg is an empty sequence"
      simp only [generateRecommendation, hgov, hecon]
      simp [maxByWeight]
    unfold analyzeFromPerspective
    rw [hget]
    simp only [hrec]

/-- C10 witness: an ideology with no values taught into the empty store,
analyzed on the keyword-free situation "hello". -/
theorem c10_empty_values_error_witness :
    govWords.any (fun w => containsSubstr (lowerStr "hello") w) = false
    ∧ econWords.any (fun w => containsSubstr (lowerStr "hello") w) = false
    ∧ teachIdeology emptyFramework "Nihilism" [] ["Nothing matters"] "" []
      = .ok { ideologies :=
          dinsert emptyFramework.ideologies "Nihilism" ⟨[], ["Nothing matters"], "", []⟩ }
    ∧ analyzeFromPerspective
        { ideologies :=
          dinsert emptyFramework.ideologies "Nihilism" ⟨[], ["Nothing matters"], "", []⟩ }
        "hello" "Nihilism"
      = .error "max() arg is an empty sequence" := by
  refine ⟨by decide, by decide, ?_, ?_⟩
  · exact (c10_empty_values_error emptyFramework "Nihilism" ["Nothing matters"] "" [] "hello"
      (by decide) (by decide)).1
  · exact (c10_empty_values_error emptyFramework "Nihilism" ["Nothing matters"] "" [] "hello"
      (by decide) (by decide)).2

/-! ## Claim C9 -/

/-- C9: `compare_perspectives` runs `analyze_from_perspective` only for
registered names, silently skipping unregistered ones, and its synthesis
reports the number of valid ideologies and of distinct value names across
them; with one valid name and one unknown name, the output holds exactly
the valid ideology's analysis and the synthesis reports 1 framework. -/
theorem c9_compare_skips_unknown (f : IdeologyFramework) (situation a b A : String)
    (ideo : Ideology) (ha : dget f.ideologies a = some ideo)
    (hb : dget f.ideologies b = none)
    (hA : analyzeFromPerspective f situation a = .ok A) :
    comparePerspectives f situation [a, b]
      = .ok (comparisonHeader situation ++ A ++ comparisonSep
             ++ "\n🎯 Synthesis:\n" ++ synthesizePerspectives f situation [a, b])
    ∧ synthesizePerspectives f situation [a, b]
      = synthesisBody ((ideo.values.map (fun p => p.1)).dedup.length) 1 := by
  have hfold : compareFold f situation [a, b] (comparisonHeader situation)
      = .ok (comparisonHeader situation ++ A ++ comparisonSep) := by
    unfold compareFold
    rw [ha]
    simp only [Option.isSome_some, if_true, hA]
    unfold compareFold
    rw [hb]
    simp only [Option.isSome_none, Bool.false_eq_true, if_false]
    unfold compareFold
    rfl
  constructor
  · unfold comparePerspectives
    rw [hfold]
  · unfold synthesizePerspectives
    have hvalid : ([a, b].filter (fun i => (dget f.ideologies i).isSome)) = [a] := by
      simp [List.filter, ha, hb]
    rw [hvalid]
    simp [List.foldl, ha]

/-- The ideology of the C9 witness. -/
def liberalIdeo : Ideology := ⟨[("freedom", mkRat 1 2)], ["Be free"], "", []⟩

/-- The one-entry store of the C9 witness. -/
def liberalFW : IdeologyFramework := ⟨[("Liberalism", liberalIdeo)]⟩

/-- The analysis text the C9 witness compares against. -/
def sampleAnalysis : String :=
  match analyzeFromPerspective liberalFW "hello" "Liberalism" with
  | .ok s => s
  | .error e => e

/-- C9 witness: comparing the registered "Liberalism" with the
unregistered "Unknown". -/
theorem c9_compare_skips_unknown_witness :
    dget liberalFW.ideologies "Liberalism" = some liberalIdeo
    ∧ dget liberalFW.ideologies "Unknown" = none
    ∧ comparePerspectives liberalFW "hello" ["Liberalism", "Unknown"]
      = .ok (comparisonHeader "hello" ++ sampleAnalysis ++ comparisonSep
             ++ "\n🎯 Synthesis:\n" ++ synthesizePerspectives liberalFW "hello" ["Liberalism", "Unknown"])
    ∧ synthesizePerspectives liberalFW "hello" ["Liberalism", "Unknown"] = synthesisBody 1 1 := by
  refine ⟨by decide, by decide, ?_, ?_⟩
  · exact (c9_compare_skips_unknown liberalFW "hello" "Liberalism" "Unknown" sampleAnalysis
      liberalIdeo (by decide) (by decide) (by rfl)).1
  · rw [(c9_compare_skips_unknown liberalFW "hello" "Liberalism" "Unknown" sampleAnalysis
      liberalIdeo (by decide) (by decide) (by rfl)).2]
    decide

/-! ## Claim C7 -/

/-- When the target is a direct unvisited successor of the start (and
distinct from it), two layers of the breadth-first search suffice and the
resulting shortest path is the single edge `[A, B]`. -/
theorem bfsAux_direct_edge (g : ConceptGraph) (A B : String) (n : Nat)
    (hAB : (A == B) = false) (hBA : (B == A) = false) (hmem : B ∈ succs g A) :
    bfsAux g B (n + 2) [A] [[A]] = some [A, B] := by
  have hpred1 : (([A] : List String).head? == some B) = false := hAB
  have hfind1 : ([[A]].find? (fun p => p.head? == some B)) = none := by
    rw [List.find?_cons_of_neg _ (by simp [hpred1]; exact beq_eq_false_iff_ne.mp hAB),
      List.find?_nil]
  have hexp : expandFrontier g [A] [[A]]
      = ((succs g A).filter (fun s => !([A].contains s))).map (fun s => s :: [A]) := by
    unfold expandFrontier
    simp [expandFrontier]
  have hmem2 : B ∈ (succs g A).filter (fun s => !([A].contains s)) := by
    refine List.mem_filter.mpr ⟨hmem, ?_⟩
    simp [List.contains_cons, hBA]
    exact beq_eq_false_iff_ne.mp hBA
  have hfind2 : ((((succs g A).filter (fun s => !([A].contains s))).map
      (fun s => s :: [A])).find? (fun p => p.head? == some B)) = some (B :: [A]) :=
    find_head_cons B [A] _ hmem2
  show bfsAux g B ((n + 1) + 1) [A] [[A]] = some [A, B]
  unfold bfsAux
  simp only [hfind1, hexp]
  unfold bfsAux
  simp only [hfind2]
  simp

/-- C7: for distinct already-taught concepts `A` and `B`, connecting them
with label `r` and then asking the path finder for the shortest path from
`A` to `B` yields the single-step path `[A, B]` carrying `r`. -/
theorem c7_connect_find_path (g : ConceptGraph) (A B r : String)
    (hA : hasNode g A = true) (hB : hasNode g B = true) (hAB : A ≠ B) :
    findPath (connectConcepts g A B r).1 A B = .path [(A, r, B)] := by
  have hcond : (!hasNode g A || !hasNode g B) = false := by rw [hA, hB]; rfl
  have key : (connectConcepts g A B r).1.nodes = g.nodes
      ∧ (connectConcepts g A B r).1.edges.find? (edgeKey A B) = some (A, B, r) := by
    unfold connectConcepts
    rw [hcond]
    simp only [Bool.false_eq_true, if_false]
    by_cases hany : g.edges.any (edgeKey A B) = true
    · rw [if_pos hany]
      exact ⟨rfl, find_replace_first (edgeKey A B) (A, B, r) (by simp [edgeKey]) g.edges hany⟩
    · rw [if_neg hany]
      refine ⟨rfl, ?_⟩
      show (g.edges ++ [(A, B, r)]).find? (edgeKey A B) = some (A, B, r)
      rw [List.find?_append]
      have hnone : g.edges.find? (edgeKey A B) = none := by
        refine List.find?_eq_none.mpr ?_
        intro x hx hcontra
        exact hany (List.any_eq_true.mpr ⟨x, hx, hcontra⟩)
      rw [hnone]
      simp [edgeKey]
  have hnodes := key.1
  have hfind := key.2
  have hmem : (A, B, r) ∈ (connectConcepts g A B r).1.edges :=
    List.mem_of_find?_eq_some hfind
  have hsucc : B ∈ succs (connectConcepts g A B r).1 A := by
    unfold succs
    exact List.mem_filterMap.mpr ⟨(A, B, r), hmem, by simp⟩
  have hA' : hasNode (connectConcepts g A B r).1 A = true := by
    unfold hasNode
    rw [hnodes]
    exact hA
  have hB' : hasNode (connectConcepts g A B r).1 B = true := by
    unfold hasNode
    rw [hnodes]
    exact hB
  have hneAB : (A == B) = false := beq_eq_false_iff_ne.mpr hAB
  have hneBA : (B == A) = false := beq_eq_false_iff_ne.mpr (Ne.symm hAB)
  have hrel : relOf (connectConcepts g A B r).1 A B = r := by
    unfold relOf
    rw [hfind]
    rfl
  obtain ⟨x, hxmem, -⟩ := List.any_eq_true.mp hA
  obtain ⟨y, ys, hys⟩ := List.exists_cons_of_ne_nil (List.ne_nil_of_mem hxmem)
  have hlen : (connectConcepts g A B r).1.nodes.length = ys.length + 1 := by
    rw [hnodes, hys]
    simp
  have hbfs : bfsAux (connectConcepts g A B r).1 B
      ((connectConcepts g A B r).1.nodes.length + 1) [A] [[A]] = some [A, B] := by
    rw [hlen]
    exact bfsAux_direct_edge (connectConcepts g A B r).1 A B ys.length hneAB hneBA hsucc
  unfold findPath
  rw [hA', hB']
  simp only [Bool.and_self, if_true, hbfs]
  simp only [pathSteps, hrel]

/-- C7 witness: a two-concept graph connected by "requires". -/
theorem c7_connect_find_path_witness :
    hasNode (addConcept (addConcept emptyGraph "Democracy" "t" "" "ts" []) "Freedom" "t" "" "ts" [])
      "Democracy" = true
    ∧ hasNode (addConcept (addConcept emptyGraph "Democracy" "t" "" "ts" []) "Freedom" "t" "" "ts" [])
      "Freedom" = true
    ∧ findPath
        (connectConcepts
          (addConcept (addConcept emptyGraph "Democracy" "t" "" "ts" []) "Freedom" "t" "" "ts" [])
          "Democracy" "Freedom" "requires").1
        "Democracy" "Freedom"
      = .path [("Democracy", "requires", "Freedom")] :=
  ⟨by decide, by decide,
   c7_connect_find_path
     (addConcept (addConcept emptyGraph "Democracy" "t" "" "ts" []) "Freedom" "t" "" "ts" [])
     "Democracy" "Freedom" "requires" (by decide) (by decide) (by decide)⟩

end Life
